import Mathlib

/-!
Shallow embedding of `crates/bevy_sprite_render/src/tilemap_chunk/mod.rs`:
the tilemap-chunk synchronization system `update_tilemap_chunk_indices`, the
mesh size cache `TilemapChunkMeshCache`, and the tile packing pipeline.

Asset pools (`Assets<T>`) are modelled as a store function from numeric handle
ids to optional values together with a fresh-id counter; `add` allocates the
next id, `get`/`set` read and write in place.  Entity commands are recorded as
a list of deferred operations, warnings as a list of diagnostic values.  The
per-tick system body is the left fold of the per-chunk reconciliation step
over the list of changed chunks yielded by the query.
-/

namespace TilemapSync

/-- 2D unsigned integer vector (`bevy_math::UVec2`). -/
structure UVec2 where
  x : Nat
  y : Nat
  deriving DecidableEq, Repr

/-- Component-wise product, `storage.size * map.tile_display_size`. -/
def UVec2.mul (a b : UVec2) : UVec2 :=
  { x := a.x * b.x, y := a.y * b.y }

/-- RGBA color value (channel bytes). -/
structure Color where
  r : Nat
  g : Nat
  b : Nat
  a : Nat
  deriving DecidableEq, Repr

/-- `Color::WHITE`. -/
def Color.WHITE : Color :=
  { r := 255, g := 255, b := 255, a := 255 }

/-- `AlphaMode2d` variants (collaborator contract: Opaque, Blend,
premultiplied Blend, Mask(threshold)). -/
inductive AlphaMode2d where
  | opaqueMode : AlphaMode2d
  | blend : AlphaMode2d
  | premultiplied : AlphaMode2d
  | mask (cutoff : Nat) : AlphaMode2d
  deriving DecidableEq, Repr

/-- `TileRenderData` (mod.rs lines 65-72): per-tile visual attributes. -/
structure TileRenderData where
  tileset_index : Nat
  color : Color
  visible : Bool
  deriving DecidableEq, Repr

/-- `Default for TileRenderData` (mod.rs lines 86-94): index 0, white, visible. -/
def TileRenderData.default : TileRenderData :=
  { tileset_index := 0, color := Color.WHITE, visible := true }

/-- One packed record: a fixed-size byte sequence. -/
abbrev PackedTileData : Type := List Nat

/-- The fixed packed record size in bytes: 16-bit index, four color channel
bytes, one visibility byte. -/
def RECORD_SIZE : Nat := 7

/-- Modelled from the spec: the module `tilemap_chunk_material` defining
`PackedTileData` and the conversion `TileRenderData -> PackedTileData` is not
among the repository files.  Per the spec the packed form is a fixed-size,
tightly laid out byte sequence with deterministic field order: the tileset
index as two little-endian bytes, the four RGBA channel bytes, then one
visibility byte. -/
def packTile (t : TileRenderData) : PackedTileData :=
  [t.tileset_index % 256, t.tileset_index / 256 % 256,
   t.color.r % 256, t.color.g % 256, t.color.b % 256, t.color.a % 256,
   if t.visible then 1 else 0]

/-- `bytemuck::cast_slice` over the collected `Vec<PackedTileData>`
(mod.rs line 143): the concatenation of the per-record byte sequences,
in order. -/
def castSlice : List PackedTileData → List Nat
  | [] => []
  | r :: rs => r ++ castSlice rs

/-- `bevy_image::Image`, reduced to the fields this subsystem touches:
logical dimensions and the optional raw backing byte buffer (`data`). -/
structure Image where
  width : Nat
  height : Nat
  data : Option (List Nat)
  deriving DecidableEq, Repr

/-- Modelled from the spec: `make_chunk_tile_data_image` lives in the missing
`tilemap_chunk_material` module.  Per the spec the create path builds the
encoded-data texture from the packed buffer, using the chunk's tile-grid cell
dimensions as the texture's logical width and height. -/
def make_chunk_tile_data_image (size : UVec2) (packed : List PackedTileData) : Image :=
  { width := size.x, height := size.y, data := some (castSlice packed) }

/-- `TilemapChunkMaterial` (declared in the missing `tilemap_chunk_material`
module; its fields are fixed by the construction at mod.rs lines 158-162):
tileset handle, tile-data image handle, alpha mode. -/
structure TilemapChunkMaterial where
  tileset : Nat
  tile_data : Nat
  alpha_mode : AlphaMode2d
  deriving DecidableEq, Repr

/-- `TileStorage<TileRenderData>` as consumed here: the chunk's cell
dimensions (`size`) and its ordered tile collection (`tiles`). -/
structure TileStorage where
  size : UVec2
  tiles : List TileRenderData
  deriving DecidableEq, Repr

/-- `bevy_sprite::Tilemap`, reduced to the field this system reads. -/
structure Tilemap where
  tile_display_size : UVec2
  deriving DecidableEq, Repr

/-- `TilemapChunkRenderer` (mod.rs lines 55-60): tileset handle and alpha
mode shared by the grid's chunks. -/
structure TilemapChunkRenderer where
  tileset : Nat
  alpha_mode : AlphaMode2d
  deriving DecidableEq, Repr

/-- A mesh asset: `Rectangle::from_size(mesh_size.as_vec2())` is determined
by its size, so the embedding stores that size. -/
structure Mesh where
  size : UVec2
  deriving DecidableEq, Repr

/-- An asset pool `Assets<A>`: a store from numeric handle ids to values plus
the next fresh id.  Handles returned by `add` are the ids. -/
structure Assets (A : Type) where
  store : Nat → Option A
  next : Nat

/-- `Assets::get` / resolving a handle. -/
def Assets.get {A : Type} (p : Assets A) (i : Nat) : Option A :=
  p.store i

/-- In-place mutation through `get_mut`: overwrite the value stored at `i`. -/
def Assets.set {A : Type} (p : Assets A) (i : Nat) (v : A) : Assets A :=
  { store := fun j => if j = i then some v else p.store j, next := p.next }

/-- `Assets::add`: store the value at the fresh id `p.next` (the returned
handle) and advance the counter. -/
def Assets.add {A : Type} (p : Assets A) (v : A) : Assets A :=
  { store := fun j => if j = p.next then some v else p.store j, next := p.next + 1 }

/-- An empty asset pool. -/
def Assets.empty {A : Type} : Assets A :=
  { store := fun _ => none, next := 0 }

/-- The diagnostics emitted by the system (`warn!` calls, mod.rs lines
115-119, 129-133, 136-140), each identifying the chunk entity. -/
inductive Warning where
  | missingTilemap (map_id chunk_id : Nat)
  | imageNotFound (chunk_id : Nat)
  | imageDataNotFound (chunk_id : Nat)
  deriving DecidableEq, Repr

/-- Deferred entity commands.  The system only ever issues
`insert (Mesh2d, MeshMaterial2d)` bundles (mod.rs lines 164-166); `remove`
is part of the ECS command surface and is here so that "never detaches" is
statable. -/
inductive Cmd where
  | insert (entity mesh_handle material_handle : Nat)
  | remove (entity : Nat)
  deriving DecidableEq, Repr

/-- One row of the system's query (mod.rs lines 97-105): the chunk entity,
its `ChildOf` target, its tile storage, and its optional
`MeshMaterial2d<TilemapChunkMaterial>` component (a material handle). -/
structure ChunkItem where
  chunk_id : Nat
  child_of : Nat
  storage : TileStorage
  material : Option Nat
  deriving DecidableEq, Repr

/-- The lookup `map_query.get` (mod.rs line 114): resolves an entity to its
`(Tilemap, TilemapChunkRenderer)` components, `none` when the entity is gone
or lacks either component. -/
def MapQuery : Type := Nat → Option (Tilemap × TilemapChunkRenderer)

/-- The mutable state threaded through one tick of the system: the mesh size
cache resource, the three asset pools, the deferred commands and the warnings
emitted so far. -/
structure SyncState where
  meshCache : UVec2 → Option Nat
  materials : Assets TilemapChunkMaterial
  images : Assets Image
  meshes : Assets Mesh
  commands : List Cmd
  warnings : List Warning

/-- The tail of the create path (mod.rs lines 156-166): register the new
tile-data image, construct and register the new `TilemapChunkMaterial` from
the renderer's tileset and alpha mode, and insert the mesh and material
components on the chunk entity. -/
def createFinish (st : SyncState) (c : ChunkItem) (mesh : Nat) (img : Image)
    (r : TilemapChunkRenderer) : SyncState :=
  let tile_data := st.images.next
  let st1 := { st with images := st.images.add img }
  let material := st1.materials.next
  let newMaterial : TilemapChunkMaterial :=
    { tileset := r.tileset, tile_data := tile_data, alpha_mode := r.alpha_mode }
  let st2 := { st1 with materials := st1.materials.add newMaterial }
  { st2 with commands := st2.commands ++ [Cmd.insert c.chunk_id mesh material] }

/-- The create path (mod.rs lines 144-166): build the tile-data image from
the packed buffer with the chunk's cell dimensions, compute the pixel
footprint `storage.size * map.tile_display_size`, get-or-create the mesh for
that footprint in the mesh size cache, then finish with the new material and
the component inserts. -/
def createPath (st : SyncState) (c : ChunkItem) (map : Tilemap)
    (r : TilemapChunkRenderer) : SyncState :=
  let packed_tile_data := c.storage.tiles.map packTile
  let tile_data_image := make_chunk_tile_data_image c.storage.size packed_tile_data
  let mesh_size := UVec2.mul c.storage.size map.tile_display_size
  match st.meshCache mesh_size with
  | some mesh => createFinish st c mesh tile_data_image r
  | none =>
    let mesh := st.meshes.next
    let st1 := { st with
      meshes := st.meshes.add (Mesh.mk mesh_size),
      meshCache := fun s => if s = mesh_size then some mesh else st.meshCache s }
    createFinish st1 c mesh tile_data_image r

/-- The per-chunk body of `update_tilemap_chunk_indices` (mod.rs lines
113-167): resolve the parent tilemap, then either update the bound material's
tile-data image buffer in place (when the material component is present and
its asset resolves) or take the create path. -/
def processChunk (mq : MapQuery) (st : SyncState) (c : ChunkItem) : SyncState :=
  match mq c.child_of with
  | none =>
    { st with warnings := st.warnings ++ [Warning.missingTilemap c.child_of c.chunk_id] }
  | some (map, map_renderer) =>
    let packed_tile_data := c.storage.tiles.map packTile
    match c.material.bind (fun m => st.materials.get m) with
    | some mat =>
      match st.images.get mat.tile_data with
      | none =>
        { st with warnings := st.warnings ++ [Warning.imageNotFound c.chunk_id] }
      | some img =>
        match img.data with
        | none =>
          { st with warnings := st.warnings ++ [Warning.imageDataNotFound c.chunk_id] }
        | some _ =>
          let newImage := { img with data := some (castSlice packed_tile_data) }
          { st with images := st.images.set mat.tile_data newImage }
    | none => createPath st c map map_renderer

/-- One tick of the system `update_tilemap_chunk_indices` (mod.rs lines
96-169): fold the per-chunk step over the changed chunks in query order. -/
def update_tilemap_chunk_indices (mq : MapQuery) (st : SyncState)
    (l : List ChunkItem) : SyncState :=
  l.foldl (processChunk mq) st

/-- Applying deferred commands to the per-entity `(Mesh2d, MeshMaterial2d)`
component state: `insert` overwrites, `remove` detaches. -/
def applyCmds (b : Nat → Option (Nat × Nat)) : List Cmd → (Nat → Option (Nat × Nat))
  | [] => b
  | Cmd.insert e mh mat :: rest =>
    applyCmds (fun e2 => if e2 = e then some (mh, mat) else b e2) rest
  | Cmd.remove e :: rest =>
    applyCmds (fun e2 => if e2 = e then none else b e2) rest

/-- The binding components a command list leaves on an entity, starting from
no components. -/
def attachedBinding (cmds : List Cmd) (e : Nat) : Option (Nat × Nat) :=
  applyCmds (fun _ => none) cmds e

/-- The observable per-chunk outcome of one reconciliation step: which branch
was taken, and the content written or created (not the numeric handles
allocated for new assets). -/
inductive Outcome where
  | skipMissingTilemap
  | skipImageNotFound
  | skipImageDataNotFound
  | updated (tile_data : Nat) (bytes : List Nat)
  | created (img : Image) (footprint : UVec2) (tileset : Nat) (alpha : AlphaMode2d)
  deriving DecidableEq, Repr

/-- The outcome `processChunk` realizes for chunk `c` from state `st`. -/
def chunkOutcome (mq : MapQuery) (st : SyncState) (c : ChunkItem) : Outcome :=
  match mq c.child_of with
  | none => Outcome.skipMissingTilemap
  | some (map, map_renderer) =>
    match c.material.bind (fun m => st.materials.get m) with
    | some mat =>
      match st.images.get mat.tile_data with
      | none => Outcome.skipImageNotFound
      | some img =>
        match img.data with
        | none => Outcome.skipImageDataNotFound
        | some _ =>
          Outcome.updated mat.tile_data (castSlice (c.storage.tiles.map packTile))
    | none =>
      Outcome.created
        (make_chunk_tile_data_image c.storage.size (c.storage.tiles.map packTile))
        (UVec2.mul c.storage.size map.tile_display_size)
        map_renderer.tileset map_renderer.alpha_mode

/-! ## Example inputs shared by witnesses and counterexamples -/

/-- A tick starting from empty pools, an empty mesh cache, and an empty
command and warning buffer. -/
def stEmpty : SyncState :=
  { meshCache := fun _ => none, materials := Assets.empty, images := Assets.empty,
    meshes := Assets.empty, commands := [], warnings := [] }

/-- A map query with one tilemap entity `10`: `tile_display_size = (16,16)`,
tileset handle `5`, opaque alpha mode. -/
def mqEx : MapQuery := fun i =>
  if i = 10 then
    some ({ tile_display_size := UVec2.mk 16 16 },
          { tileset := 5, alpha_mode := AlphaMode2d.opaqueMode })
  else none

/-- An unbound 1x1 chunk of entity id 1 under tilemap 10. -/
def c1ex : ChunkItem :=
  { chunk_id := 1, child_of := 10,
    storage := { size := UVec2.mk 1 1, tiles := [TileRenderData.default] },
    material := none }

/-- A second unbound chunk with the same footprint, entity id 2. -/
def c2ex : ChunkItem := { c1ex with chunk_id := 2 }

/-- A chunk of entity id 3 that carries a `MeshMaterial2d` component whose
material handle `7` does not resolve in the material pool. -/
def cDangling : ChunkItem := { c1ex with chunk_id := 3, material := some 7 }

/-- The material bound to the example chunk `cBound`: tile-data image
handle 0. -/
def matEx : TilemapChunkMaterial :=
  { tileset := 5, tile_data := 0, alpha_mode := AlphaMode2d.opaqueMode }

/-- A tile-data image with an allocated backing buffer of stale bytes. -/
def imgEx : Image :=
  { width := 1, height := 1, data := some [9, 9, 9, 9, 9, 9, 9] }

/-- A tile-data image whose backing buffer is unallocated. -/
def imgNoData : Image := { width := 1, height := 1, data := none }

/-- A state where material handle 0 resolves to `matEx` and image handle 0
to `imgEx`. -/
def stBound : SyncState :=
  { stEmpty with materials := Assets.empty.add matEx, images := Assets.empty.add imgEx }

/-- A state where the bound material resolves but its tile-data image handle
does not. -/
def stNoImage : SyncState :=
  { stEmpty with materials := Assets.empty.add matEx }

/-- A state where the tile-data image resolves but has no backing buffer. -/
def stNoData : SyncState :=
  { stEmpty with materials := Assets.empty.add matEx, images := Assets.empty.add imgNoData }

/-- A bound 1x1 chunk of entity id 4: its material component holds handle 0. -/
def cBound : ChunkItem := { c1ex with chunk_id := 4, material := some 0 }

/-- A chunk of entity id 6 whose `ChildOf` target 11 is not a tilemap. -/
def cOrphan : ChunkItem := { c1ex with chunk_id := 6, child_of := 11 }

/-- An unbound 2x2 chunk of entity id 9, with a larger footprint than
`c1ex`. -/
def cBig : ChunkItem :=
  { c1ex with
    chunk_id := 9,
    storage := { size := UVec2.mk 2 2, tiles := List.replicate 4 TileRenderData.default } }

/-- A two-record tile sequence used to exercise the packing lemmas. -/
def lEx : List TileRenderData :=
  [TileRenderData.default, { tileset_index := 3, color := Color.WHITE, visible := false }]

/-- A component table where entity 4 is bound to mesh handle 0 and material
handle 0. -/
def bEx : Nat → Option (Nat × Nat) := fun e => if e = 4 then some (0, 0) else none

/-- A state whose mesh cache already holds handle 77 for the 16x16 pixel
footprint. -/
def stCache77 : SyncState :=
  { stEmpty with meshCache := fun s => if s = UVec2.mk 16 16 then some 77 else none }

/-- Per handle, whether the image resolves and whether its backing buffer is
allocated: exactly the data the update-path branch conditions read. -/
def imageLive (o : Option Image) : Option Bool :=
  o.map (fun img => img.data.isSome)

/-- Whether a command is a component insert. -/
def Cmd.isInsert : Cmd → Bool
  | Cmd.insert _ _ _ => true
  | Cmd.remove _ => false

/-! ## Asset pool laws -/

theorem Assets.get_set_self {A : Type} (p : Assets A) (i : Nat) (v : A) :
    (p.set i v).get i = some v := by
  simp [Assets.get, Assets.set]

theorem Assets.get_set_ne {A : Type} (p : Assets A) (i j : Nat) (v : A)
    (h : j ≠ i) : (p.set i v).get j = p.get j := by
  simp [Assets.get, Assets.set, h]

theorem Assets.next_set {A : Type} (p : Assets A) (i : Nat) (v : A) :
    (p.set i v).next = p.next := rfl

theorem Assets.get_add_self {A : Type} (p : Assets A) (v : A) :
    (p.add v).get p.next = some v := by
  simp [Assets.get, Assets.add]

theorem Assets.get_add_ne {A : Type} (p : Assets A) (v : A) (j : Nat)
    (h : j ≠ p.next) : (p.add v).get j = p.get j := by
  simp [Assets.get, Assets.add, h]

theorem Assets.next_add {A : Type} (p : Assets A) (v : A) :
    (p.add v).next = p.next + 1 := rfl

/-! ## Step characterization lemmas: what one `processChunk` call can do to
each piece of the state. -/

/-- The material pool after one step: unchanged, or one fresh registration. -/
theorem processChunk_materials_cases (mq : MapQuery) (st : SyncState) (c : ChunkItem) :
    (processChunk mq st c).materials = st.materials ∨
    ∃ v, (processChunk mq st c).materials = st.materials.add v := by
  rcases hmq : mq c.child_of with _ | ⟨map, r⟩
  · left; simp [processChunk, hmq]
  · rcases hb : c.material.bind (fun m => st.materials.get m) with _ | mat
    · rcases hc : st.meshCache (UVec2.mul c.storage.size map.tile_display_size) with _ | mh
      · right
        exact ⟨{ tileset := r.tileset, tile_data := st.images.next, alpha_mode := r.alpha_mode },
          by simp [processChunk, hmq, hb, createPath, hc, createFinish]⟩
      · right
        exact ⟨{ tileset := r.tileset, tile_data := st.images.next, alpha_mode := r.alpha_mode },
          by simp [processChunk, hmq, hb, createPath, hc, createFinish]⟩
    · rcases hi : st.images.get mat.tile_data with _ | img
      · left; simp [processChunk, hmq, hb, hi]
      · rcases hd : img.data with _ | d
        · left; simp [processChunk, hmq, hb, hi, hd]
        · left; simp [processChunk, hmq, hb, hi, hd]

/-- The image pool after one step: unchanged, an in-place buffer overwrite of
an image that already had a buffer, or one fresh registration. -/
theorem processChunk_images_cases (mq : MapQuery) (st : SyncState) (c : ChunkItem) :
    (processChunk mq st c).images = st.images ∨
    (∃ j img d, st.images.get j = some img ∧ img.data = some d ∧
      (processChunk mq st c).images
        = st.images.set j (Image.mk img.width img.height
            (some (castSlice (c.storage.tiles.map packTile))))) ∨
    ∃ v, (processChunk mq st c).images = st.images.add v := by
  rcases hmq : mq c.child_of with _ | ⟨map, r⟩
  · left; simp [processChunk, hmq]
  · rcases hb : c.material.bind (fun m => st.materials.get m) with _ | mat
    · rcases hc : st.meshCache (UVec2.mul c.storage.size map.tile_display_size) with _ | mh
      · right; right
        exact ⟨make_chunk_tile_data_image c.storage.size (c.storage.tiles.map packTile),
          by simp [processChunk, hmq, hb, createPath, hc, createFinish]⟩
      · right; right
        exact ⟨make_chunk_tile_data_image c.storage.size (c.storage.tiles.map packTile),
          by simp [processChunk, hmq, hb, createPath, hc, createFinish]⟩
    · rcases hi : st.images.get mat.tile_data with _ | img
      · left; simp [processChunk, hmq, hb, hi]
      · rcases hd : img.data with _ | d
        · left; simp [processChunk, hmq, hb, hi, hd]
        · right; left
          exact ⟨mat.tile_data, img, d, hi, hd,
            by simp [processChunk, hmq, hb, hi, hd]⟩

/-- The mesh pool and the mesh size cache after one step: both unchanged, or
one mesh registered for a footprint that was not cached, and cached under
exactly that footprint with exactly the fresh handle. -/
theorem processChunk_meshes_cases (mq : MapQuery) (st : SyncState) (c : ChunkItem) :
    ((processChunk mq st c).meshes = st.meshes ∧
     (processChunk mq st c).meshCache = st.meshCache) ∨
    ∃ ms, st.meshCache ms = none ∧
      (processChunk mq st c).meshes = st.meshes.add (Mesh.mk ms) ∧
      (processChunk mq st c).meshCache
        = fun s => if s = ms then some st.meshes.next else st.meshCache s := by
  rcases hmq : mq c.child_of with _ | ⟨map, r⟩
  · left; constructor <;> simp [processChunk, hmq]
  · rcases hb : c.material.bind (fun m => st.materials.get m) with _ | mat
    · rcases hc : st.meshCache (UVec2.mul c.storage.size map.tile_display_size) with _ | mh
      · right
        refine ⟨UVec2.mul c.storage.size map.tile_display_size, hc, ?_, ?_⟩ <;>
          simp [processChunk, hmq, hb, createPath, hc, createFinish]
      · left
        constructor <;> simp [processChunk, hmq, hb, createPath, hc, createFinish]
    · rcases hi : st.images.get mat.tile_data with _ | img
      · left; constructor <;> simp [processChunk, hmq, hb, hi]
      · rcases hd : img.data with _ | d
        · left; constructor <;> simp [processChunk, hmq, hb, hi, hd]
        · left; constructor <;> simp [processChunk, hmq, hb, hi, hd]

/-- The command buffer after one step: unchanged, or extended by exactly one
component insert. -/
theorem processChunk_commands_cases (mq : MapQuery) (st : SyncState) (c : ChunkItem) :
    (processChunk mq st c).commands = st.commands ∨
    ∃ mh math, (processChunk mq st c).commands
      = st.commands ++ [Cmd.insert c.chunk_id mh math] := by
  rcases hmq : mq c.child_of with _ | ⟨map, r⟩
  · left; simp [processChunk, hmq]
  · rcases hb : c.material.bind (fun m => st.materials.get m) with _ | mat
    · rcases hc : st.meshCache (UVec2.mul c.storage.size map.tile_display_size) with _ | mh
      · right
        exact ⟨st.meshes.next, st.materials.next,
          by simp [processChunk, hmq, hb, createPath, hc, createFinish]⟩
      · right
        exact ⟨mh, st.materials.next,
          by simp [processChunk, hmq, hb, createPath, hc, createFinish]⟩
    · rcases hi : st.images.get mat.tile_data with _ | img
      · left; simp [processChunk, hmq, hb, hi]
      · rcases hd : img.data with _ | d
        · left; simp [processChunk, hmq, hb, hi, hd]
        · left; simp [processChunk, hmq, hb, hi, hd]

/-! ## Derived single-step lemmas -/

theorem processChunk_materials_next_le (mq : MapQuery) (st : SyncState) (c : ChunkItem) :
    st.materials.next ≤ (processChunk mq st c).materials.next := by
  rcases processChunk_materials_cases mq st c with h | ⟨v, h⟩
  · rw [h]
  · rw [h, Assets.next_add]
    exact Nat.le_succ _

theorem processChunk_materials_get_lt (mq : MapQuery) (st : SyncState) (c : ChunkItem)
    (m : Nat) (hm : m < st.materials.next) :
    (processChunk mq st c).materials.get m = st.materials.get m := by
  rcases processChunk_materials_cases mq st c with h | ⟨v, h⟩ <;> rw [h]
  exact Assets.get_add_ne _ _ _ (Nat.ne_of_lt hm)

theorem processChunk_images_next_le (mq : MapQuery) (st : SyncState) (c : ChunkItem) :
    st.images.next ≤ (processChunk mq st c).images.next := by
  rcases processChunk_images_cases mq st c with h | ⟨j, img, d, _, _, h⟩ | ⟨v, h⟩
  · rw [h]
  · rw [h, Assets.next_set]
  · rw [h, Assets.next_add]
    exact Nat.le_succ _

theorem processChunk_imageLive (mq : MapQuery) (st : SyncState) (c : ChunkItem)
    (i : Nat) (hi : i < st.images.next) :
    imageLive ((processChunk mq st c).images.get i) = imageLive (st.images.get i) := by
  rcases processChunk_images_cases mq st c with h | ⟨j, img, d, hj, hd, h⟩ | ⟨v, h⟩ <;> rw [h]
  · rcases Decidable.em (i = j) with rfl | hne
    · rw [Assets.get_set_self, hj]
      simp [imageLive, hd]
    · rw [Assets.get_set_ne _ _ _ _ hne]
  · rw [Assets.get_add_ne _ _ _ (Nat.ne_of_lt hi)]

theorem processChunk_meshCache_mono (mq : MapQuery) (st : SyncState) (c : ChunkItem)
    (s : UVec2) (mh : Nat) (h : st.meshCache s = some mh) :
    (processChunk mq st c).meshCache s = some mh := by
  rcases processChunk_meshes_cases mq st c with ⟨_, hc⟩ | ⟨ms, hms, _, hc⟩ <;> rw [hc]
  · exact h
  · rcases Decidable.em (s = ms) with rfl | hne
    · rw [hms] at h; cases h
    · simp [hne, h]

theorem processChunk_meshes_next_le (mq : MapQuery) (st : SyncState) (c : ChunkItem) :
    st.meshes.next ≤ (processChunk mq st c).meshes.next := by
  rcases processChunk_meshes_cases mq st c with ⟨h, _⟩ | ⟨ms, _, h, _⟩
  · rw [h]
  · rw [h, Assets.next_add]
    exact Nat.le_succ _

theorem processChunk_meshes_get_lt (mq : MapQuery) (st : SyncState) (c : ChunkItem)
    (i : Nat) (hi : i < st.meshes.next) :
    (processChunk mq st c).meshes.get i = st.meshes.get i := by
  rcases processChunk_meshes_cases mq st c with ⟨h, _⟩ | ⟨ms, _, h, _⟩ <;> rw [h]
  exact Assets.get_add_ne _ _ _ (Nat.ne_of_lt hi)

/-! ## Whole-tick lemmas, by induction along the changed-chunk list -/

theorem run_nil (mq : MapQuery) (st : SyncState) :
    update_tilemap_chunk_indices mq st [] = st := rfl

theorem run_cons (mq : MapQuery) (st : SyncState) (c : ChunkItem) (l : List ChunkItem) :
    update_tilemap_chunk_indices mq st (c :: l)
      = update_tilemap_chunk_indices mq (processChunk mq st c) l := rfl

theorem run_materials_next_le (mq : MapQuery) (l : List ChunkItem) :
    ∀ st : SyncState,
      st.materials.next ≤ (update_tilemap_chunk_indices mq st l).materials.next := by
  induction l with
  | nil => intro st; exact Nat.le_refl _
  | cons c l ih =>
    intro st
    rw [run_cons]
    exact Nat.le_trans (processChunk_materials_next_le mq st c) (ih _)

theorem run_materials_get_lt (mq : MapQuery) (l : List ChunkItem) :
    ∀ (st : SyncState) (m : Nat), m < st.materials.next →
      (update_tilemap_chunk_indices mq st l).materials.get m = st.materials.get m := by
  induction l with
  | nil => intro st m _; rfl
  | cons c l ih =>
    intro st m hm
    rw [run_cons, ih _ m (Nat.lt_of_lt_of_le hm (processChunk_materials_next_le mq st c))]
    exact processChunk_materials_get_lt mq st c m hm

theorem run_images_next_le (mq : MapQuery) (l : List ChunkItem) :
    ∀ st : SyncState,
      st.images.next ≤ (update_tilemap_chunk_indices mq st l).images.next := by
  induction l with
  | nil => intro st; exact Nat.le_refl _
  | cons c l ih =>
    intro st
    rw [run_cons]
    exact Nat.le_trans (processChunk_images_next_le mq st c) (ih _)

theorem run_imageLive (mq : MapQuery) (l : List ChunkItem) :
    ∀ (st : SyncState) (i : Nat), i < st.images.next →
      imageLive ((update_tilemap_chunk_indices mq st l).images.get i)
        = imageLive (st.images.get i) := by
  induction l with
  | nil => intro st i _; rfl
  | cons c l ih =>
    intro st i hi
    rw [run_cons, ih _ i (Nat.lt_of_lt_of_le hi (processChunk_images_next_le mq st c))]
    exact processChunk_imageLive mq st c i hi

theorem run_meshCache_mono (mq : MapQuery) (l : List ChunkItem) :
    ∀ (st : SyncState) (s : UVec2) (mh : Nat), st.meshCache s = some mh →
      (update_tilemap_chunk_indices mq st l).meshCache s = some mh := by
  induction l with
  | nil => intro st s mh h; exact h
  | cons c l ih =>
    intro st s mh h
    rw [run_cons]
    exact ih _ s mh (processChunk_meshCache_mono mq st c s mh h)

theorem run_meshes_next_le (mq : MapQuery) (l : List ChunkItem) :
    ∀ st : SyncState,
      st.meshes.next ≤ (update_tilemap_chunk_indices mq st l).meshes.next := by
  induction l with
  | nil => intro st; exact Nat.le_refl _
  | cons c l ih =>
    intro st
    rw [run_cons]
    exact Nat.le_trans (processChunk_meshes_next_le mq st c) (ih _)

theorem run_meshes_get_lt (mq : MapQuery) (l : List ChunkItem) :
    ∀ (st : SyncState) (i : Nat), i < st.meshes.next →
      (update_tilemap_chunk_indices mq st l).meshes.get i = st.meshes.get i := by
  induction l with
  | nil => intro st i _; rfl
  | cons c l ih =>
    intro st i hi
    rw [run_cons, ih _ i (Nat.lt_of_lt_of_le hi (processChunk_meshes_next_le mq st c))]
    exact processChunk_meshes_get_lt mq st c i hi

/-- Every mesh handle allocated during a tick ends the tick cached under the
size of the mesh it denotes. -/
theorem run_fresh_mesh_cached (mq : MapQuery) (l : List ChunkItem) :
    ∀ (st : SyncState) (i : Nat) (s : UVec2),
      st.meshes.next ≤ i →
      i < (update_tilemap_chunk_indices mq st l).meshes.next →
      (update_tilemap_chunk_indices mq st l).meshes.get i = some (Mesh.mk s) →
      (update_tilemap_chunk_indices mq st l).meshCache s = some i := by
  induction l with
  | nil =>
    intro st i s hle hlt _
    exact absurd hlt (Nat.not_lt_of_ge hle)
  | cons c l ih =>
    intro st i s hle hlt hget
    rw [run_cons] at hlt hget ⊢
    rcases processChunk_meshes_cases mq st c with ⟨hm, _⟩ | ⟨ms, _, hm, hc⟩
    · have hle2 : (processChunk mq st c).meshes.next ≤ i := by
        rw [hm]; exact hle
      exact ih _ i s hle2 hlt hget
    · rcases Decidable.em (i = st.meshes.next) with hi | hne
      · have hlt2 : i < (processChunk mq st c).meshes.next := by
          rw [hm, Assets.next_add, hi]
          exact Nat.lt_succ_self _
        have hgi : (update_tilemap_chunk_indices mq (processChunk mq st c) l).meshes.get i
            = some (Mesh.mk ms) := by
          rw [run_meshes_get_lt mq l _ i hlt2, hm, hi]
          exact Assets.get_add_self _ _
        have hsms : s = ms := congrArg Mesh.size (Option.some.inj (hget.symm.trans hgi))
        have hcache : (processChunk mq st c).meshCache s = some i := by
          rw [hc, hsms, hi]
          simp
        exact run_meshCache_mono mq l _ s i hcache
      · have hle2 : (processChunk mq st c).meshes.next ≤ i := by
          rw [hm, Assets.next_add]
          exact Nat.succ_le_of_lt (Nat.lt_of_le_of_ne hle (fun h => hne h.symm))
        exact ih _ i s hle2 hlt hget

/-! ## Outcome stability: the branch a chunk takes and the content it
produces depend only on the state at the start of the tick. -/

theorem imageLive_eq_none {o : Option Image} (h : imageLive o = none) : o = none := by
  cases o with
  | none => rfl
  | some img => simp [imageLive] at h

theorem imageLive_eq_some_false {o : Option Image} (h : imageLive o = some false) :
    ∃ img, o = some img ∧ img.data = none := by
  cases o with
  | none => simp [imageLive] at h
  | some img =>
    refine ⟨img, rfl, ?_⟩
    simp [imageLive] at h
    exact Option.not_isSome_iff_eq_none.mp (by simp [h])

theorem imageLive_eq_some_true {o : Option Image} (h : imageLive o = some true) :
    ∃ img d, o = some img ∧ img.data = some d := by
  cases o with
  | none => simp [imageLive] at h
  | some img =>
    simp [imageLive] at h
    rcases Option.isSome_iff_exists.mp h with ⟨d, hd⟩
    exact ⟨img, d, rfl, hd⟩

/-- The outcome a chunk realizes after any prefix of the tick has run equals
the outcome computed from the tick's initial state, provided the chunk's
component handles were allocated before the tick began. -/
theorem chunkOutcome_stable (mq : MapQuery) (l : List ChunkItem) (st : SyncState)
    (c : ChunkItem)
    (hmat : ∀ m, c.material = some m → m < st.materials.next)
    (himg : ∀ m mat, c.material = some m → st.materials.get m = some mat →
      mat.tile_data < st.images.next) :
    chunkOutcome mq (update_tilemap_chunk_indices mq st l) c = chunkOutcome mq st c := by
  rcases hmq : mq c.child_of with _ | ⟨map, r⟩
  · simp [chunkOutcome, hmq]
  · rcases hm : c.material with _ | m
    · simp [chunkOutcome, hmq, hm]
    · have hgetm : (update_tilemap_chunk_indices mq st l).materials.get m
          = st.materials.get m :=
        run_materials_get_lt mq l st m (hmat m hm)
      rcases hmm : st.materials.get m with _ | mat
      · simp [chunkOutcome, hmq, hm, hgetm, hmm]
      · have hlive := run_imageLive mq l st mat.tile_data (himg m mat hm hmm)
        rcases hii : st.images.get mat.tile_data with _ | img
        · have h2 : (update_tilemap_chunk_indices mq st l).images.get mat.tile_data
              = none := by
            apply imageLive_eq_none
            rw [hlive, hii]
            rfl
          simp [chunkOutcome, hmq, hm, hgetm, hmm, h2, hii]
        · rcases hd : img.data with _ | d
          · have h2 : imageLive
                ((update_tilemap_chunk_indices mq st l).images.get mat.tile_data)
                = some false := by
              rw [hlive, hii]
              simp [imageLive, hd]
            rcases imageLive_eq_some_false h2 with ⟨img2, hi2, hd2⟩
            simp [chunkOutcome, hmq, hm, hgetm, hmm, hii, hd, hi2, hd2]
          · have h2 : imageLive
                ((update_tilemap_chunk_indices mq st l).images.get mat.tile_data)
                = some true := by
              rw [hlive, hii]
              simp [imageLive, hd]
            rcases imageLive_eq_some_true h2 with ⟨img2, d2, hi2, hd2⟩
            simp [chunkOutcome, hmq, hm, hgetm, hmm, hii, hd, hi2, hd2]

/-! ## Command-buffer lemmas -/

/-- The system only ever appends component inserts to the command buffer. -/
theorem run_commands_inserts (mq : MapQuery) (l : List ChunkItem) :
    ∀ st : SyncState, (∀ cmd ∈ st.commands, cmd.isInsert = true) →
      ∀ cmd ∈ (update_tilemap_chunk_indices mq st l).commands, cmd.isInsert = true := by
  induction l with
  | nil => intro st h; exact h
  | cons c l ih =>
    intro st h
    rw [run_cons]
    apply ih
    intro cmd hc
    rcases processChunk_commands_cases mq st c with h2 | ⟨mh, math, h2⟩
    · exact h cmd (h2 ▸ hc)
    · rw [h2] at hc
      rcases List.mem_append.mp hc with hc2 | hc2
      · exact h cmd hc2
      · have := List.mem_singleton.mp hc2
        subst this
        rfl

/-- Applying a command list that contains only inserts never detaches a
present binding. -/
theorem applyCmds_isSome (cmds : List Cmd) :
    ∀ (b : Nat → Option (Nat × Nat)) (e : Nat),
      (∀ cmd ∈ cmds, cmd.isInsert = true) → (b e).isSome = true →
      ((applyCmds b cmds) e).isSome = true := by
  induction cmds with
  | nil => intro b e _ hb; exact hb
  | cons cmd rest ih =>
    intro b e hall hb
    cases cmd with
    | insert e2 mh mat =>
      simp only [applyCmds]
      apply ih
      · intro c2 hc2
        exact hall c2 (List.mem_cons_of_mem _ hc2)
      · rcases Decidable.em (e = e2) with he | he
        · simp [he]
        · simp [he, hb]
    | remove e2 =>
      have := hall (Cmd.remove e2) (List.mem_cons_self _ _)
      simp [Cmd.isInsert] at this

/-! ## Packing lemmas -/

theorem packTile_length (t : TileRenderData) : (packTile t).length = RECORD_SIZE := by
  cases t with
  | mk i col v => cases v <;> simp [packTile, RECORD_SIZE]

theorem castSlice_length (l : List TileRenderData) :
    (castSlice (l.map packTile)).length = l.length * RECORD_SIZE := by
  induction l with
  | nil => simp [castSlice]
  | cons t rest ih =>
    simp only [List.map_cons, castSlice, List.length_append, packTile_length, ih,
      List.length_cons, RECORD_SIZE]
    omega

theorem castSlice_drop (l : List TileRenderData) :
    ∀ i : Nat, (castSlice (l.map packTile)).drop (i * RECORD_SIZE)
      = castSlice ((l.drop i).map packTile) := by
  induction l with
  | nil => intro i; simp [castSlice]
  | cons t rest ih =>
    intro i
    cases i with
    | zero => simp
    | succ n =>
      have hstep : (n + 1) * RECORD_SIZE = (packTile t).length + n * RECORD_SIZE := by
        rw [packTile_length]
        ring
      simp only [List.map_cons, castSlice, hstep, List.drop_append, List.drop_succ_cons]
      exact ih n

/-- The bytes of record `i` sit at offset `i * RECORD_SIZE`. -/
theorem castSlice_segment (l : List TileRenderData) (i : Nat) (h : i < l.length) :
    ((castSlice (l.map packTile)).drop (i * RECORD_SIZE)).take RECORD_SIZE
      = packTile (l.get ⟨i, h⟩) := by
  rw [castSlice_drop, List.drop_eq_getElem_cons h]
  simp only [List.map_cons, castSlice]
  rw [← packTile_length (l.get ⟨i, h⟩)]
  exact List.take_left _ _

/-! ## The claims -/

/-- C3: on the update path, when the bound material resolves, its tile-data
image is found and that image's backing byte buffer is present, the buffer
after synchronization holds exactly the packed byte encoding of the chunk's
current ordered tile collection — the previous contents are gone, nothing
else is appended, and the image's dimensions are untouched. -/
theorem claim3_update_replaces_buffer (mq : MapQuery) (st : SyncState) (c : ChunkItem)
    (map : Tilemap) (r : TilemapChunkRenderer) (m : Nat) (mat : TilemapChunkMaterial)
    (img : Image) (d : List Nat)
    (hmq : mq c.child_of = some (map, r))
    (hm : c.material = some m)
    (hmat : st.materials.get m = some mat)
    (himg : st.images.get mat.tile_data = some img)
    (hd : img.data = some d) :
    (processChunk mq st c).images.get mat.tile_data
      = some (Image.mk img.width img.height
          (some (castSlice (c.storage.tiles.map packTile)))) := by
  simp [processChunk, hmq, hm, hmat, himg, hd, Assets.get_set_self]

/-- Witness for C3: the stale bytes `[9, 9, 9, 9, 9, 9, 9]` of the bound
image are replaced by the packed encoding of the single default tile. -/
theorem claim3_witness :
    (processChunk mqEx stBound cBound).images.get 0
      = some (Image.mk 1 1 (some [0, 0, 255, 255, 255, 255, 1])) :=
  claim3_update_replaces_buffer mqEx stBound cBound
    (Tilemap.mk (UVec2.mk 16 16)) (TilemapChunkRenderer.mk 5 AlphaMode2d.opaqueMode)
    0 matEx imgEx [9, 9, 9, 9, 9, 9, 9] rfl rfl rfl rfl rfl

/-- C4: packing is a pure, deterministic, order-preserving function: the
packed buffer of an ordered sequence of N records has length exactly
N * RECORD_SIZE, and record i's bytes occupy the RECORD_SIZE-byte segment at
offset i * RECORD_SIZE, so for i < j record i's bytes sit strictly before
record j's.  Determinism is inherent: `packTile` and `castSlice` are
functions of the sequence alone, so packing the same sequence twice yields
the same buffer by reflexivity. -/
theorem claim4_packing (l : List TileRenderData) :
    (castSlice (l.map packTile)).length = l.length * RECORD_SIZE ∧
    ∀ (i : Nat) (h : i < l.length),
      ((castSlice (l.map packTile)).drop (i * RECORD_SIZE)).take RECORD_SIZE
        = packTile (l.get ⟨i, h⟩) :=
  ⟨castSlice_length l, fun i h => castSlice_segment l i h⟩

/-- Witness for C4: the two-record sequence `lEx` packs to 2 * RECORD_SIZE
bytes and record 1 occupies the second RECORD_SIZE-byte segment. -/
theorem claim4_witness :
    (castSlice (lEx.map packTile)).length = lEx.length * RECORD_SIZE ∧
    ((castSlice (lEx.map packTile)).drop (1 * RECORD_SIZE)).take RECORD_SIZE
      = packTile (lEx.get ⟨1, by decide⟩) :=
  ⟨(claim4_packing lEx).1, (claim4_packing lEx).2 1 (by decide)⟩

/-- C5: for every changed chunk whose parent cannot be resolved to an entity
holding both the `Tilemap` and the `TilemapChunkRenderer` (the visual
descriptor), the step emits one warning identifying the chunk and leaves the
mesh cache, all three asset pools and the command buffer untouched. -/
theorem claim5_missing_tilemap_skips (mq : MapQuery) (st : SyncState) (c : ChunkItem)
    (hmq : mq c.child_of = none) :
    (processChunk mq st c).meshCache = st.meshCache ∧
    (processChunk mq st c).materials = st.materials ∧
    (processChunk mq st c).images = st.images ∧
    (processChunk mq st c).meshes = st.meshes ∧
    (processChunk mq st c).commands = st.commands ∧
    (processChunk mq st c).warnings
      = st.warnings ++ [Warning.missingTilemap c.child_of c.chunk_id] := by
  refine ⟨?_, ?_, ?_, ?_, ?_, ?_⟩ <;> simp [processChunk, hmq]

/-- Witness for C5: chunk 6's `ChildOf` target 11 is not a tilemap; the
state is unchanged except for the warning naming chunk 6. -/
theorem claim5_witness :
    (processChunk mqEx stEmpty cOrphan).meshCache = stEmpty.meshCache ∧
    (processChunk mqEx stEmpty cOrphan).materials = stEmpty.materials ∧
    (processChunk mqEx stEmpty cOrphan).images = stEmpty.images ∧
    (processChunk mqEx stEmpty cOrphan).meshes = stEmpty.meshes ∧
    (processChunk mqEx stEmpty cOrphan).commands = stEmpty.commands ∧
    (processChunk mqEx stEmpty cOrphan).warnings
      = stEmpty.warnings ++ [Warning.missingTilemap 11 6] :=
  claim5_missing_tilemap_skips mqEx stEmpty cOrphan rfl

/-- C6: on the update path, when the bound material's tile-data image does
not resolve, or resolves without a raw backing buffer, the step warns naming
the chunk and leaves every buffer, pool, the cache and the command buffer
untouched.  (No panic is possible: `processChunk` is a total function.) -/
theorem claim6_update_failures_skip (mq : MapQuery) (st : SyncState) (c : ChunkItem)
    (map : Tilemap) (r : TilemapChunkRenderer) (m : Nat) (mat : TilemapChunkMaterial)
    (hmq : mq c.child_of = some (map, r))
    (hm : c.material = some m)
    (hmat : st.materials.get m = some mat)
    (hfail : st.images.get mat.tile_data = none ∨
      ∃ img, st.images.get mat.tile_data = some img ∧ img.data = none) :
    (processChunk mq st c).images = st.images ∧
    (processChunk mq st c).materials = st.materials ∧
    (processChunk mq st c).meshes = st.meshes ∧
    (processChunk mq st c).meshCache = st.meshCache ∧
    (processChunk mq st c).commands = st.commands ∧
    ((processChunk mq st c).warnings
        = st.warnings ++ [Warning.imageNotFound c.chunk_id] ∨
     (processChunk mq st c).warnings
        = st.warnings ++ [Warning.imageDataNotFound c.chunk_id]) := by
  rcases hfail with hni | ⟨img, hi, hd⟩
  · refine ⟨?_, ?_, ?_, ?_, ?_, Or.inl ?_⟩ <;> simp [processChunk, hmq, hm, hmat, hni]
  · refine ⟨?_, ?_, ?_, ?_, ?_, Or.inr ?_⟩ <;> simp [processChunk, hmq, hm, hmat, hi, hd]

/-- Witness for C6: chunk 4 is bound to material 0 whose tile-data image
handle 0 does not resolve in `stNoImage`; the step only warns. -/
theorem claim6_witness :
    (processChunk mqEx stNoImage cBound).images = stNoImage.images ∧
    (processChunk mqEx stNoImage cBound).materials = stNoImage.materials ∧
    (processChunk mqEx stNoImage cBound).meshes = stNoImage.meshes ∧
    (processChunk mqEx stNoImage cBound).meshCache = stNoImage.meshCache ∧
    (processChunk mqEx stNoImage cBound).commands = stNoImage.commands ∧
    ((processChunk mqEx stNoImage cBound).warnings
        = stNoImage.warnings ++ [Warning.imageNotFound 4] ∨
     (processChunk mqEx stNoImage cBound).warnings
        = stNoImage.warnings ++ [Warning.imageDataNotFound 4]) :=
  claim6_update_failures_skip mqEx stNoImage cBound
    (Tilemap.mk (UVec2.mk 16 16)) (TilemapChunkRenderer.mk 5 AlphaMode2d.opaqueMode)
    0 matEx rfl rfl rfl (Or.inl rfl)

/-- C1 counterexample: the claim says a chunk that already has a material
component attached never takes the create path "regardless of whether the
binding's material ... resolve[s] in the asset pools".  The code branches on
`material.and_then(|m| materials.get_mut(m.id()))`, so chunk 3 — which
carries material handle 7 that does not resolve in the empty pool — falls
through to the create path: a new image, mesh and material are allocated and
a fresh binding is inserted on the chunk. -/
theorem claim1_counterexample :
    cDangling.material = some 7 ∧
    (processChunk mqEx stEmpty cDangling).materials.next
      = stEmpty.materials.next + 1 ∧
    (processChunk mqEx stEmpty cDangling).images.next = stEmpty.images.next + 1 ∧
    (processChunk mqEx stEmpty cDangling).meshes.next = stEmpty.meshes.next + 1 ∧
    (processChunk mqEx stEmpty cDangling).commands = [Cmd.insert 3 0 0] := by
  decide

/-- C1 (amended): for every changed chunk whose attached material component
resolves in the material pool, the synchronizer never takes the create path
in that tick — no new tile-data texture is built, no geometry is allocated
and the mesh cache is untouched, and no new binding is constructed or
attached — regardless of whether the tile-data texture resolves. -/
theorem claim1_resolved_binding_never_creates (mq : MapQuery) (st : SyncState)
    (c : ChunkItem) (m : Nat) (mat : TilemapChunkMaterial)
    (hm : c.material = some m)
    (hmat : st.materials.get m = some mat) :
    (processChunk mq st c).commands = st.commands ∧
    (processChunk mq st c).materials = st.materials ∧
    (processChunk mq st c).images.next = st.images.next ∧
    (processChunk mq st c).meshes = st.meshes ∧
    (processChunk mq st c).meshCache = st.meshCache := by
  rcases hmq : mq c.child_of with _ | ⟨map, r⟩
  · refine ⟨?_, ?_, ?_, ?_, ?_⟩ <;> simp [processChunk, hmq]
  · rcases hi : st.images.get mat.tile_data with _ | img
    · refine ⟨?_, ?_, ?_, ?_, ?_⟩ <;> simp [processChunk, hmq, hm, hmat, hi]
    · rcases hd : img.data with _ | d
      · refine ⟨?_, ?_, ?_, ?_, ?_⟩ <;> simp [processChunk, hmq, hm, hmat, hi, hd]
      · refine ⟨?_, ?_, ?_, ?_, ?_⟩ <;>
          simp [processChunk, hmq, hm, hmat, hi, hd, Assets.set]

/-- Witness for the amended C1: chunk 4's material handle 0 resolves in
`stBound`, so its step allocates nothing and attaches nothing. -/
theorem claim1_witness :
    (processChunk mqEx stBound cBound).commands = stBound.commands ∧
    (processChunk mqEx stBound cBound).materials = stBound.materials ∧
    (processChunk mqEx stBound cBound).images.next = stBound.images.next ∧
    (processChunk mqEx stBound cBound).meshes = stBound.meshes ∧
    (processChunk mqEx stBound cBound).meshCache = stBound.meshCache :=
  claim1_resolved_binding_never_creates mqEx stBound cBound 0 matEx rfl rfl

/-- C7: on the create path (resolvable tilemap and renderer, no material
component), the step registers a tile-data image built from the packed
buffer with the chunk's cell dimensions as logical width and height,
registers a material copying the renderer's tileset and alpha mode and
referencing that image, and appends an insert attaching a mesh handle and
the new material handle to the chunk; the mesh footprint key is the
component-wise product of the cell dimensions and `tile_display_size`, and
on a cache miss the mesh registered under the fresh handle is the rectangle
of exactly that footprint. -/
theorem claim7_create_path (mq : MapQuery) (st : SyncState) (c : ChunkItem)
    (map : Tilemap) (r : TilemapChunkRenderer)
    (hmq : mq c.child_of = some (map, r))
    (hm : c.material = none) :
    (processChunk mq st c).images.get st.images.next
      = some (Image.mk c.storage.size.x c.storage.size.y
          (some (castSlice (c.storage.tiles.map packTile)))) ∧
    (processChunk mq st c).materials.get st.materials.next
      = some (TilemapChunkMaterial.mk r.tileset st.images.next r.alpha_mode) ∧
    (∃ mh, (processChunk mq st c).commands
        = st.commands ++ [Cmd.insert c.chunk_id mh st.materials.next] ∧
      (st.meshCache (UVec2.mul c.storage.size map.tile_display_size) = some mh ∨
       (st.meshCache (UVec2.mul c.storage.size map.tile_display_size) = none ∧
        mh = st.meshes.next ∧
        (processChunk mq st c).meshes.get mh
          = some (Mesh.mk (UVec2.mul c.storage.size map.tile_display_size))))) ∧
    UVec2.mul c.storage.size map.tile_display_size
      = UVec2.mk (c.storage.size.x * map.tile_display_size.x)
          (c.storage.size.y * map.tile_display_size.y) := by
  rcases hc : st.meshCache (UVec2.mul c.storage.size map.tile_display_size) with _ | mh
  · refine ⟨?_, ?_, ⟨st.meshes.next, ?_, Or.inr ⟨rfl, rfl, ?_⟩⟩, rfl⟩ <;>
      simp [processChunk, hmq, hm, createPath, hc, createFinish,
        make_chunk_tile_data_image, Assets.get_add_self, Assets.get_add_ne,
        Assets.add, Assets.get]
  · refine ⟨?_, ?_, ⟨mh, ?_, Or.inl rfl⟩, rfl⟩ <;>
      simp [processChunk, hmq, hm, createPath, hc, createFinish,
        make_chunk_tile_data_image, Assets.get_add_self, Assets.get_add_ne,
        Assets.add, Assets.get]

/-- Witness for C7: the unbound 1x1 chunk 1 under tilemap 10 creates a 1x1
tile-data image at handle 0, a material at handle 0 copying tileset 5 and
the opaque alpha mode, a 16x16 rectangle mesh at handle 0, and attaches
mesh 0 and material 0. -/
theorem claim7_witness :
    (processChunk mqEx stEmpty c1ex).images.get 0
      = some (Image.mk 1 1 (some [0, 0, 255, 255, 255, 255, 1])) ∧
    (processChunk mqEx stEmpty c1ex).materials.get 0
      = some (TilemapChunkMaterial.mk 5 0 AlphaMode2d.opaqueMode) ∧
    (∃ mh, (processChunk mqEx stEmpty c1ex).commands
        = stEmpty.commands ++ [Cmd.insert 1 mh 0] ∧
      (stEmpty.meshCache (UVec2.mul c1ex.storage.size (UVec2.mk 16 16)) = some mh ∨
       (stEmpty.meshCache (UVec2.mul c1ex.storage.size (UVec2.mk 16 16)) = none ∧
        mh = 0 ∧
        (processChunk mqEx stEmpty c1ex).meshes.get mh
          = some (Mesh.mk (UVec2.mul c1ex.storage.size (UVec2.mk 16 16)))))) ∧
    UVec2.mul c1ex.storage.size (UVec2.mk 16 16) = UVec2.mk 16 16 :=
  claim7_create_path mqEx stEmpty c1ex
    (Tilemap.mk (UVec2.mk 16 16)) (TilemapChunkRenderer.mk 5 AlphaMode2d.opaqueMode)
    rfl rfl

/-- C10: on a successful update-path step, only the bound material's
tile-data image buffer changes: the material pool (hence the material's
tileset, tile_data and alpha_mode), the mesh pool, the mesh size cache, the
command buffer and the warning list are all unchanged, no image is
registered (the image pool's fresh counter is unchanged and every other
handle reads the same), and the updated image keeps its dimensions. -/
theorem claim10_update_frame (mq : MapQuery) (st : SyncState) (c : ChunkItem)
    (map : Tilemap) (r : TilemapChunkRenderer) (m : Nat) (mat : TilemapChunkMaterial)
    (img : Image) (d : List Nat)
    (hmq : mq c.child_of = some (map, r))
    (hm : c.material = some m)
    (hmat : st.materials.get m = some mat)
    (himg : st.images.get mat.tile_data = some img)
    (hd : img.data = some d) :
    (processChunk mq st c).materials = st.materials ∧
    (processChunk mq st c).meshes = st.meshes ∧
    (processChunk mq st c).meshCache = st.meshCache ∧
    (processChunk mq st c).commands = st.commands ∧
    (processChunk mq st c).warnings = st.warnings ∧
    (processChunk mq st c).images.next = st.images.next ∧
    (∀ j, j ≠ mat.tile_data → (processChunk mq st c).images.get j = st.images.get j) ∧
    (processChunk mq st c).images.get mat.tile_data
      = some (Image.mk img.width img.height
          (some (castSlice (c.storage.tiles.map packTile)))) := by
  have himages : (processChunk mq st c).images
      = st.images.set mat.tile_data
          (Image.mk img.width img.height
            (some (castSlice (c.storage.tiles.map packTile)))) := by
    simp [processChunk, hmq, hm, hmat, himg, hd]
  refine ⟨?_, ?_, ?_, ?_, ?_, ?_, fun j hj => ?_, ?_⟩
  · simp [processChunk, hmq, hm, hmat, himg, hd]
  · simp [processChunk, hmq, hm, hmat, himg, hd]
  · simp [processChunk, hmq, hm, hmat, himg, hd]
  · simp [processChunk, hmq, hm, hmat, himg, hd]
  · simp [processChunk, hmq, hm, hmat, himg, hd]
  · rw [himages, Assets.next_set]
  · rw [himages]
    exact Assets.get_set_ne _ _ _ _ hj
  · rw [himages]
    exact Assets.get_set_self _ _ _

/-- Witness for C10: updating bound chunk 4 in `stBound` leaves everything
but image 0's buffer unchanged (image 1 still reads `none`). -/
theorem claim10_witness :
    (processChunk mqEx stBound cBound).materials = stBound.materials ∧
    (processChunk mqEx stBound cBound).meshes = stBound.meshes ∧
    (processChunk mqEx stBound cBound).meshCache = stBound.meshCache ∧
    (processChunk mqEx stBound cBound).commands = stBound.commands ∧
    (processChunk mqEx stBound cBound).warnings = stBound.warnings ∧
    (processChunk mqEx stBound cBound).images.next = stBound.images.next ∧
    (∀ j, j ≠ 0 → (processChunk mqEx stBound cBound).images.get j
      = stBound.images.get j) ∧
    (processChunk mqEx stBound cBound).images.get 0
      = some (Image.mk 1 1 (some [0, 0, 255, 255, 255, 255, 1])) :=
  claim10_update_frame mqEx stBound cBound
    (Tilemap.mk (UVec2.mk 16 16)) (TilemapChunkRenderer.mk 5 AlphaMode2d.opaqueMode)
    0 matEx imgEx [9, 9, 9, 9, 9, 9, 9] rfl rfl rfl rfl rfl

/-- C2: the mesh size cache maps each footprint to at most one handle (it is
a function), and across a whole tick: (1) a cached entry is never removed or
overwritten — any later lookup of that footprint yields the identical stored
handle; (2) a create-path step whose footprint is already cached attaches
exactly the stored handle and registers no mesh; (3) two distinct unbound
chunks of equal pixel footprint synchronized in the same tick end up
referencing the identical mesh handle. -/
theorem claim2_mesh_cache :
    (∀ (mq : MapQuery) (st : SyncState) (l : List ChunkItem) (s : UVec2) (h : Nat),
      st.meshCache s = some h →
      (update_tilemap_chunk_indices mq st l).meshCache s = some h) ∧
    (∀ (mq : MapQuery) (st : SyncState) (c : ChunkItem) (map : Tilemap)
        (r : TilemapChunkRenderer) (h : Nat),
      mq c.child_of = some (map, r) →
      c.material.bind (fun m => st.materials.get m) = none →
      st.meshCache (UVec2.mul c.storage.size map.tile_display_size) = some h →
      (processChunk mq st c).meshes = st.meshes ∧
      (processChunk mq st c).meshCache = st.meshCache ∧
      (processChunk mq st c).commands
        = st.commands ++ [Cmd.insert c.chunk_id h st.materials.next]) ∧
    (∀ (mq : MapQuery) (st : SyncState) (c1 c2 : ChunkItem) (map1 map2 : Tilemap)
        (r1 r2 : TilemapChunkRenderer),
      mq c1.child_of = some (map1, r1) → mq c2.child_of = some (map2, r2) →
      c1.material = none → c2.material = none →
      UVec2.mul c1.storage.size map1.tile_display_size
        = UVec2.mul c2.storage.size map2.tile_display_size →
      ∃ mh m1 m2,
        (update_tilemap_chunk_indices mq st [c1, c2]).commands
          = st.commands ++ [Cmd.insert c1.chunk_id mh m1, Cmd.insert c2.chunk_id mh m2]) := by
  refine ⟨fun mq st l s h => run_meshCache_mono mq l st s h, ?_, ?_⟩
  · intro mq st c map r h hmq hb hc
    refine ⟨?_, ?_, ?_⟩ <;> simp [processChunk, hmq, hb, createPath, hc, createFinish]
  · intro mq st c1 c2 map1 map2 r1 r2 hmq1 hmq2 hm1 hm2 hfoot
    rw [run_cons, run_cons, run_nil]
    rcases hc : st.meshCache (UVec2.mul c1.storage.size map1.tile_display_size) with _ | mh
    · refine ⟨st.meshes.next, st.materials.next, st.materials.next + 1, ?_⟩
      simp [processChunk, hmq1, hmq2, hm1, hm2, createPath, createFinish, hc, ← hfoot,
        Assets.next_add]
    · refine ⟨mh, st.materials.next, st.materials.next + 1, ?_⟩
      simp [processChunk, hmq1, hmq2, hm1, hm2, createPath, createFinish, hc, ← hfoot,
        Assets.next_add]

/-- Witness for C2: a cached entry `(16,16) -> 77` survives a tick and is
the handle attached to a same-footprint chunk; two unbound 1x1 chunks in one
tick share one mesh handle. -/
theorem claim2_witness :
    (update_tilemap_chunk_indices mqEx stCache77 [c1ex]).meshCache (UVec2.mk 16 16)
      = some 77 ∧
    ((processChunk mqEx stCache77 c1ex).meshes = stCache77.meshes ∧
     (processChunk mqEx stCache77 c1ex).meshCache = stCache77.meshCache ∧
     (processChunk mqEx stCache77 c1ex).commands
       = stCache77.commands ++ [Cmd.insert 1 77 0]) ∧
    (∃ mh m1 m2,
      (update_tilemap_chunk_indices mqEx stEmpty [c1ex, c2ex]).commands
        = stEmpty.commands ++ [Cmd.insert 1 mh m1, Cmd.insert 2 mh m2]) :=
  ⟨claim2_mesh_cache.1 mqEx stCache77 [c1ex] (UVec2.mk 16 16) 77 rfl,
   claim2_mesh_cache.2.1 mqEx stCache77 c1ex (Tilemap.mk (UVec2.mk 16 16))
     (TilemapChunkRenderer.mk 5 AlphaMode2d.opaqueMode) 77 rfl rfl rfl,
   claim2_mesh_cache.2.2 mqEx stEmpty c1ex c2ex (Tilemap.mk (UVec2.mk 16 16))
     (Tilemap.mk (UVec2.mk 16 16)) (TilemapChunkRenderer.mk 5 AlphaMode2d.opaqueMode)
     (TilemapChunkRenderer.mk 5 AlphaMode2d.opaqueMode) rfl rfl rfl rfl rfl⟩

/-- C9: viewing each chunk's binding as a state machine, the synchronizer
never detaches: every command a tick issues is a component insert (never a
removal), and applying the tick's command buffer to any component table
keeps every bound chunk bound. -/
theorem claim9_never_unbinds (mq : MapQuery) (st : SyncState) (l : List ChunkItem)
    (b : Nat → Option (Nat × Nat)) (e : Nat)
    (hstart : ∀ cmd ∈ st.commands, cmd.isInsert = true)
    (hbound : (b e).isSome = true) :
    (∀ cmd ∈ (update_tilemap_chunk_indices mq st l).commands, cmd.isInsert = true) ∧
    ((applyCmds b (update_tilemap_chunk_indices mq st l).commands) e).isSome = true := by
  have h1 := run_commands_inserts mq l st hstart
  exact ⟨h1, applyCmds_isSome _ b e h1 hbound⟩

/-- Witness for C9: entity 4 is bound in `bEx`; after a tick over three
chunks (one of which fails to resolve its tilemap) it is still bound. -/
theorem claim9_witness :
    ((applyCmds bEx
        (update_tilemap_chunk_indices mqEx stEmpty [c1ex, cOrphan, cBig]).commands) 4).isSome
      = true :=
  (claim9_never_unbinds mqEx stEmpty [c1ex, cOrphan, cBig] bEx 4
    (fun cmd hcmd => absurd hcmd (List.not_mem_nil cmd)) rfl).2

/-- C8 counterexample: the tick's result does depend on processing order.
Chunks 1 and 2 are both valid, unbound, non-aliasing 1x1 chunks; the two
processing orders are permutations of each other, yet chunk 1 ends bound to
material handle 0 under one order and to material handle 1 under the other,
because asset handles are allocated in processing order. -/
theorem claim8_counterexample :
    [c1ex, c2ex].Perm [c2ex, c1ex] ∧
    attachedBinding ((update_tilemap_chunk_indices mqEx stEmpty [c1ex, c2ex]).commands) 1
      ≠ attachedBinding ((update_tilemap_chunk_indices mqEx stEmpty [c2ex, c1ex]).commands) 1 := by
  constructor
  · decide
  · decide

/-- C8 (amended): the observable outcome each chunk realizes — which branch
it takes and the content it writes or creates (packed bytes, texture
dimensions, footprint, tileset, alpha mode) — is the same under any two
processing orders of the changed chunks, provided the chunk's component
handles predate the tick; and no duplicate geometry is created for the same
footprint: two distinct mesh handles allocated within one tick never hold
rectangles of the same size.  Only the numeric identities of freshly
allocated asset handles depend on the order. -/
theorem claim8_amended (mq : MapQuery) (st : SyncState) (l1 l2 : List ChunkItem)
    (c : ChunkItem)
    (_hperm : l1.Perm l2)
    (hmat : ∀ m, c.material = some m → m < st.materials.next)
    (himg : ∀ m mat, c.material = some m → st.materials.get m = some mat →
      mat.tile_data < st.images.next) :
    chunkOutcome mq (update_tilemap_chunk_indices mq st l1) c
      = chunkOutcome mq (update_tilemap_chunk_indices mq st l2) c ∧
    ∀ (l : List ChunkItem) (i j : Nat) (s : UVec2),
      st.meshes.next ≤ i → i < j →
      j < (update_tilemap_chunk_indices mq st l).meshes.next →
      (update_tilemap_chunk_indices mq st l).meshes.get i = some (Mesh.mk s) →
      (update_tilemap_chunk_indices mq st l).meshes.get j ≠ some (Mesh.mk s) := by
  constructor
  · rw [chunkOutcome_stable mq l1 st c hmat himg, chunkOutcome_stable mq l2 st c hmat himg]
  · intro l i j s hle hij hjlt hi hj
    have h1 := run_fresh_mesh_cached mq l st i s hle (Nat.lt_trans hij hjlt) hi
    have h2 := run_fresh_mesh_cached mq l st j s
      (Nat.le_trans hle (Nat.le_of_lt hij)) hjlt hj
    rw [h1] at h2
    exact absurd (Option.some.inj h2) (Nat.ne_of_lt hij)

/-- Witness for the amended C8: the bound chunk 4 realizes the same outcome
whether the prefix `[c1ex, cOrphan]` ran in either order, and the second
mesh allocated in a tick over two different-footprint chunks is not a
duplicate of the first. -/
theorem claim8_witness :
    chunkOutcome mqEx (update_tilemap_chunk_indices mqEx stBound [c1ex, cOrphan]) cBound
      = chunkOutcome mqEx (update_tilemap_chunk_indices mqEx stBound [cOrphan, c1ex]) cBound ∧
    (update_tilemap_chunk_indices mqEx stBound [c1ex, cBig]).meshes.get 1
      ≠ some (Mesh.mk (UVec2.mk 16 16)) := by
  have hmat : ∀ m, cBound.material = some m → m < stBound.materials.next := by
    intro m hm
    have h0 : some 0 = some m := hm
    injection h0 with h
    subst h
    decide
  have himg : ∀ m mat, cBound.material = some m → stBound.materials.get m = some mat →
      mat.tile_data < stBound.images.next := by
    intro m mat hm hmat2
    have h0 : some 0 = some m := hm
    injection h0 with h
    subst h
    have h1 : some matEx = some mat := hmat2
    injection h1 with h2
    subst h2
    decide
  refine ⟨(claim8_amended mqEx stBound [c1ex, cOrphan] [cOrphan, c1ex] cBound
      (by decide) hmat himg).1,
    (claim8_amended mqEx stBound [c1ex, cOrphan] [cOrphan, c1ex] cBound
      (by decide) hmat himg).2
      [c1ex, cBig] 0 1 (UVec2.mk 16 16) (by decide) (by decide) (by decide) (by decide)⟩

end TilemapSync
